import Mathlib

/-!
Verification development for the pond / water-surface effect of `src/Pond.tsx`.

The shader and frame code are shallowly embedded over `ℚ`.  GLSL floating
point arithmetic is modelled as exact rational arithmetic.  The two
transcendental ingredients of the code — `exp` in the Gaussian splat of the
ripple shader and `Math.sin` in the leaf wobble — are abstracted as function
parameters (`expNeg`, `sinQ`), as is the irrational constant `Math.PI`
(`piQ`): every theorem below is proved for an arbitrary interpretation of
these parameters, which in particular covers the real interpretations
`expNeg x = Real.exp (-x)`, `sinQ = Real.sin`, `piQ = π`.
-/

namespace Pond

/-- `decodeH` of the ripple shader: stored red-channel value `r ∈ [0,1]`
decodes to a height `h = 2r - 1 ∈ [-1,1]`.  Source: `float decodeH(float r)
{ return r * 2.0 - 1.0; }`. -/
def decodeH (r : ℚ) : ℚ := r * 2 - 1

/-- `encodeH` of the ripple shader: height `h ∈ [-1,1]` is stored as
`h * 0.5 + 0.5 ∈ [0,1]`.  Source: `float encodeH(float h) { return h * 0.5
+ 0.5; }`. -/
def encodeH (h : ℚ) : ℚ := h * 0.5 + 0.5

/-- GLSL `clamp(x, lo, hi) = min(max(x, lo), hi)`. -/
def clampQ (x lo hi : ℚ) : ℚ := min (max x lo) hi

/-- A simulation texture: the stored red-channel value at each texel
coordinate.  Only texels `0 ≤ i, j < simSize` are ever rendered to or
sampled (sampling clamps to that range, see `clipIdx`). -/
abbrev Tex := ℤ → ℤ → ℚ

/-- Clamp-to-edge texel addressing: the render targets use the default
`ClampToEdgeWrapping`, so a sample outside the texture reads the nearest
edge texel. -/
def clipIdx (n : ℕ) (i : ℤ) : ℤ := max 0 (min i ((n : ℤ) - 1))

/-- `sampleH` of the ripple shader: sample a texture at a texel coordinate
(clamped to the edge) and decode the red channel to a height.  Source:
`float sampleH(sampler2D tex, vec2 uv) { return decodeH(texture2D(tex,
uv).r); }`, with UV offsets of `uTexel` corresponding to texel index
offsets of `±1`. -/
def sampleH (n : ℕ) (tex : Tex) (i j : ℤ) : ℚ :=
  decodeH (tex (clipIdx n i) (clipIdx n j))

/-- The UV coordinate of the centre of texel `i` in a texture of `n` texels
per side: `(i + 0.5) / n`. -/
def texelUV (n : ℕ) (i : ℤ) : ℚ := ((i : ℚ) + 1/2) / (n : ℚ)

/-- Squared Euclidean distance between two 2D points.  The shader computes
`d = distance(vUv, uMouse)` and only ever uses `d*d`, which equals this
rational expression exactly. -/
def distSq (px py qx qy : ℚ) : ℚ := (px - qx) ^ 2 + (py - qy) ^ 2

/-- The Gaussian splat factor `exp(-(d*d) / (radius*radius))` of the ripple
shader, with `x ↦ exp (-x)` abstracted as the parameter `expNeg` (it is
transcendental) and the squared distance `d2` passed directly. -/
def gaussSplat (expNeg : ℚ → ℚ) (d2 radius : ℚ) : ℚ := expNeg (d2 / (radius * radius))

/-- The impulse state read by one simulation tick: `uMouse` (UV position),
`uImpulse` (magnitude) and `uImpulseRadius`. -/
structure Impulse where
  mx : ℚ
  my : ℚ
  mag : ℚ
  radius : ℚ

/-- Wave speed uniform `uC` of the ripple shader: `{ value: 0.35 }`. -/
def uC : ℚ := 0.35

/-- Damping uniform `uDamping` of the ripple shader: `{ value: 0.020 }`. -/
def uDamping : ℚ := 0.020

/-- One fragment of the `RippleSim` shader, producing the decoded new
height at texel `(i, j)` before encoding.  Direct transliteration of the
fragment shader body: laplacian, wave update, velocity damping, Gaussian
impulse splat, clamp to `[-1, 1]`. -/
def rippleStepCell (expNeg : ℚ → ℚ) (n : ℕ) (uPrev uPrevPrev : Tex)
    (imp : Impulse) (uStrength : ℚ) (i j : ℤ) : ℚ :=
  let h := sampleH n uPrev i j
  let h1 := sampleH n uPrevPrev i j
  let l := sampleH n uPrev (i + 1) j + sampleH n uPrev (i - 1) j
    + sampleH n uPrev i (j + 1) + sampleH n uPrev i (j - 1) - 4 * h
  let next₀ := (2 * h - h1) + (uC * uC) * l
  let vel := h - h1
  let next₁ := next₀ - uDamping * vel
  let d2 := distSq (texelUV n i) (texelUV n j) imp.mx imp.my
  let splat := gaussSplat expNeg d2 imp.radius
  let next₂ := next₁ + splat * imp.mag * uStrength
  clampQ next₂ (-1) 1

/-- One full-grid tick of the `RippleSim` shader: every texel gets the
encoded clamped new height. -/
def rippleStep (expNeg : ℚ → ℚ) (n : ℕ) (uPrev uPrevPrev : Tex)
    (imp : Impulse) (uStrength : ℚ) : Tex :=
  fun i j => encodeH (rippleStepCell expNeg n uPrev uPrevPrev imp uStrength i j)

/-- The state of the `RippleSim` component: the three render targets
`[rtA, rtB, rtC]` and the three role indices `prevIdx`, `prevPrevIdx`,
`writeIdx`. -/
structure SimState where
  bufs : Fin 3 → Tex
  prevIdx : Fin 3
  prevPrevIdx : Fin 3
  writeIdx : Fin 3

/-- Initial `RippleSim` state: all three render targets cleared to the
colour `(0.5, 0, 0, 1)` (red channel `0.5`), and the role indices at their
initial values `prevIdx = 0`, `prevPrevIdx = 1`, `writeIdx = 2`. -/
def initState : SimState :=
  { bufs := fun _ _ _ => 0.5
  , prevIdx := 0
  , prevPrevIdx := 1
  , writeIdx := 2 }

/-- One `useFrame` call of `RippleSim`.  When `enabled` is false the
callback reports a null texture and returns before touching any state.
When enabled it renders `rippleStep` into the write target, rotates the
three role indices (`prevPrev ← prev`, `prev ← write`, `write ← old
prevPrev`) and exposes the texture of the newly written buffer. -/
def simFrame (expNeg : ℚ → ℚ) (n : ℕ) (enabled : Bool) (imp : Impulse)
    (uStrength : ℚ) (s : SimState) : SimState × Option Tex :=
  if enabled then
    let written := rippleStep expNeg n (s.bufs s.prevIdx) (s.bufs s.prevPrevIdx) imp uStrength
    let bufs' := Function.update s.bufs s.writeIdx written
    let s' : SimState :=
      { bufs := bufs'
      , prevIdx := s.writeIdx
      , prevPrevIdx := s.prevIdx
      , writeIdx := s.prevPrevIdx }
    (s', some (bufs' s.writeIdx))
  else
    (s, none)

/-- Running a sequence of enabled ticks, one impulse per tick. -/
def runSim (expNeg : ℚ → ℚ) (n : ℕ) (uStrength : ℚ) (frames : List Impulse)
    (s : SimState) : SimState :=
  frames.foldl (fun st imp => (simFrame expNeg n true imp uStrength st).1) s

/-- The spec's 4-neighbour discrete Laplacian of the current height field:
N + S + E + W neighbour heights minus 4 times the centre. -/
def specLaplacian (n : ℕ) (tex : Tex) (i j : ℤ) : ℚ :=
  sampleH n tex i (j + 1) + sampleH n tex i (j - 1)
    + sampleH n tex (i + 1) j + sampleH n tex (i - 1) j
    - 4 * sampleH n tex i j

-- Basic algebraic lemmas

theorem decode_encode (h : ℚ) : decodeH (encodeH h) = h := by
  simp only [decodeH, encodeH]
  ring

theorem clampQ_le (x lo hi : ℚ) (h : lo ≤ hi) : lo ≤ clampQ x lo hi ∧ clampQ x lo hi ≤ hi := by
  unfold clampQ
  constructor
  · exact le_min (le_max_right x lo) h
  · exact min_le_right _ _

theorem rippleStepCell_bounds (expNeg : ℚ → ℚ) (n : ℕ) (uPrev uPrevPrev : Tex)
    (imp : Impulse) (uStrength : ℚ) (i j : ℤ) :
    -1 ≤ rippleStepCell expNeg n uPrev uPrevPrev imp uStrength i j ∧
      rippleStepCell expNeg n uPrev uPrevPrev imp uStrength i j ≤ 1 :=
  clampQ_le _ _ _ (by norm_num)

theorem simFrame_true_bufs (expNeg : ℚ → ℚ) (n : ℕ) (imp : Impulse)
    (uStrength : ℚ) (s : SimState) :
    ((simFrame expNeg n true imp uStrength s).1).bufs =
      Function.update s.bufs s.writeIdx
        (rippleStep expNeg n (s.bufs s.prevIdx) (s.bufs s.prevPrevIdx) imp uStrength) := by
  simp [simFrame]

/-- Every buffer of a simulator state decodes into `[-1, 1]` everywhere. -/
def BoundedState (s : SimState) : Prop :=
  ∀ (b : Fin 3) (i j : ℤ), -1 ≤ decodeH (s.bufs b i j) ∧ decodeH (s.bufs b i j) ≤ 1

theorem boundedState_step (expNeg : ℚ → ℚ) (n : ℕ) (imp : Impulse)
    (uStrength : ℚ) (s : SimState) (hs : BoundedState s) :
    BoundedState (simFrame expNeg n true imp uStrength s).1 := by
  intro b i j
  rw [simFrame_true_bufs]
  by_cases hb : b = s.writeIdx
  · subst hb
    rw [Function.update_same]
    rw [rippleStep, decode_encode]
    exact clampQ_le _ _ _ (by norm_num)
  · rw [Function.update_noteq hb]
    exact hs b i j

theorem boundedState_runSim (expNeg : ℚ → ℚ) (n : ℕ) (uStrength : ℚ)
    (frames : List Impulse) (s : SimState) (hs : BoundedState s) :
    BoundedState (runSim expNeg n uStrength frames s) := by
  induction frames generalizing s with
  | nil => exact hs
  | cons imp rest ih =>
    show BoundedState (runSim expNeg n uStrength rest (simFrame expNeg n true imp uStrength s).1)
    exact ih _ (boundedState_step expNeg n imp uStrength s hs)

theorem boundedState_init : BoundedState initState := by
  intro b i j
  simp [initState, decodeH]
  norm_num

/-- Claim C1: for every grid cell and every enabled tick, the decoded new
height written by the simulator equals the second-order finite-difference
wave step `2*current - previous + c^2 * laplacian(current) -
damping*(current - previous) + gaussian * magnitude * strength`, clamped to
`[-1, 1]`, with `c = 0.35`, `damping = 0.02`, the 4-neighbour discrete
Laplacian, and stored values decoding via `h = 2r - 1`. -/
theorem claim1_wave_step_formula (expNeg : ℚ → ℚ) (n : ℕ) (imp : Impulse)
    (uStrength : ℚ) (s : SimState) (i j : ℤ) :
    decodeH (((simFrame expNeg n true imp uStrength s).1).bufs s.writeIdx i j) =
      clampQ
        (2 * sampleH n (s.bufs s.prevIdx) i j
          - sampleH n (s.bufs s.prevPrevIdx) i j
          + (0.35 : ℚ) * 0.35 * specLaplacian n (s.bufs s.prevIdx) i j
          - (0.02 : ℚ) * (sampleH n (s.bufs s.prevIdx) i j
              - sampleH n (s.bufs s.prevPrevIdx) i j)
          + gaussSplat expNeg
              (distSq (texelUV n i) (texelUV n j) imp.mx imp.my) imp.radius
            * imp.mag * uStrength)
        (-1) 1 := by
  rw [simFrame_true_bufs, Function.update_same]
  rw [rippleStep, decode_encode]
  unfold rippleStepCell specLaplacian clampQ uC uDamping
  norm_num
  ring_nf

/-- Claim C2: starting from the cleared initial state, after any sequence
of enabled ticks with arbitrary impulses, every cell of every buffer
decodes to a height in `[-1, 1]`. -/
theorem claim2_clamp_invariant (expNeg : ℚ → ℚ) (n : ℕ) (uStrength : ℚ)
    (frames : List Impulse) (b : Fin 3) (i j : ℤ) :
    -1 ≤ decodeH ((runSim expNeg n uStrength frames initState).bufs b i j) ∧
      decodeH ((runSim expNeg n uStrength frames initState).bufs b i j) ≤ 1 :=
  boundedState_runSim expNeg n uStrength frames initState boundedState_init b i j

/-- Claim C3: a tick executed with `enabled = false` exposes a null
texture and leaves the whole simulator state unchanged: no buffer is
written and the three role indices keep their values. -/
theorem claim3_disabled_tick (expNeg : ℚ → ℚ) (n : ℕ) (imp : Impulse)
    (uStrength : ℚ) (s : SimState) :
    simFrame expNeg n false imp uStrength s = (s, none) := by
  simp [simFrame]

/-- The three role indices form a permutation of `{0, 1, 2}`. -/
def RolesPermutation (s : SimState) : Prop :=
  ({s.prevIdx, s.prevPrevIdx, s.writeIdx} : Finset (Fin 3)) = Finset.univ

instance (s : SimState) : Decidable (RolesPermutation s) := by
  unfold RolesPermutation
  infer_instance

/-- Claim C4: on every enabled tick the buffer roles rotate exactly as
specified — the buffer just written becomes current (`prevIdx`), the old
current becomes previous (`prevPrevIdx`), and the old previous becomes the
next write target; exactly the write-target buffer is written (with the
wave step) and the other two buffers are untouched; and the three role
indices remain a permutation of `{0, 1, 2}`. -/
theorem claim4_buffer_rotation (expNeg : ℚ → ℚ) (n : ℕ) (imp : Impulse)
    (uStrength : ℚ) (s : SimState) :
    ((simFrame expNeg n true imp uStrength s).1).prevIdx = s.writeIdx ∧
    ((simFrame expNeg n true imp uStrength s).1).prevPrevIdx = s.prevIdx ∧
    ((simFrame expNeg n true imp uStrength s).1).writeIdx = s.prevPrevIdx ∧
    ((simFrame expNeg n true imp uStrength s).1).bufs s.writeIdx =
      rippleStep expNeg n (s.bufs s.prevIdx) (s.bufs s.prevPrevIdx) imp uStrength ∧
    (∀ b : Fin 3, b ≠ s.writeIdx →
      ((simFrame expNeg n true imp uStrength s).1).bufs b = s.bufs b) ∧
    (RolesPermutation s → RolesPermutation (simFrame expNeg n true imp uStrength s).1) := by
  refine ⟨by simp [simFrame], by simp [simFrame], by simp [simFrame], ?_, ?_, ?_⟩
  · rw [simFrame_true_bufs, Function.update_same]
  · intro b hb
    rw [simFrame_true_bufs, Function.update_noteq hb]
  · intro hperm
    unfold RolesPermutation at hperm ⊢
    show ({s.writeIdx, s.prevIdx, s.prevPrevIdx} : Finset (Fin 3)) = Finset.univ
    rw [← hperm]
    ext x
    simp [Finset.mem_insert]
    tauto

theorem claim4_buffer_rotation_witness :
    RolesPermutation
      (simFrame (fun _ => 0) 512 true ⟨0, 0, 0, 1/50⟩ 0.9 initState).1 :=
  (claim4_buffer_rotation (fun _ => 0) 512 ⟨0, 0, 0, 1/50⟩ 0.9 initState).2.2.2.2.2
    (by decide)

/-- Texture with every stored value `0.5`: all heights decode to `0`. -/
def flatTex : Tex := fun _ _ => 0.5

/-- Texture with every stored value `0.75`: all heights decode to `0.5`. -/
def halfTex : Tex := fun _ _ => 0.75

/-- Total energy of the height field: the sum over all grid cells of the
squared decoded heights. -/
def energy (n : ℕ) (tex : Tex) : ℚ :=
  ∑ i ∈ Finset.range n, ∑ j ∈ Finset.range n, (decodeH (tex (i : ℤ) (j : ℤ))) ^ 2

/-- Claim C8 is false as stated: with damping `0.02 > 0` and impulse
magnitude `0`, the state whose current heights are all `0` (energy `0`)
and whose previous heights are all `0.5` steps, on a 1×1 grid, to height
`-0.49` — total energy strictly increases from `0` to `0.2401`, so the
sum of squared heights is not non-increasing frame over frame. -/
theorem claim8_counterexample :
    energy 1 flatTex <
      energy 1 (rippleStep (fun _ => 0) 1 flatTex halfTex ⟨0, 0, 0, 1/50⟩ 0.9) := by
  norm_num [energy, rippleStep, rippleStepCell, flatTex, halfTex, sampleH,
    decodeH, encodeH, clampQ, clipIdx, gaussSplat, distSq, texelUV, uC, uDamping]

/-- Claim C8 (amended): with no impulse (magnitude `0`), total energy need
not decrease frame over frame; what holds is that after every tick total
energy is bounded by the number of grid cells (every clamped height lies
in `[-1, 1]`), and the flat rest state (all heights `0` in both history
buffers) is an exact fixed point of the step, so its energy stays `0`. -/
theorem claim8_amended (expNeg : ℚ → ℚ) (n : ℕ) (uPrev uPrevPrev : Tex)
    (imp : Impulse) (uStrength : ℚ) (hmag : imp.mag = 0) :
    energy n (rippleStep expNeg n uPrev uPrevPrev imp uStrength) ≤ (n : ℚ) ^ 2 ∧
      (∀ i j : ℤ, rippleStep expNeg n flatTex flatTex imp uStrength i j = 0.5) := by
  constructor
  · have hcell : ∀ i j : ℤ,
        (decodeH (rippleStep expNeg n uPrev uPrevPrev imp uStrength i j)) ^ 2 ≤ 1 := by
      intro i j
      rw [rippleStep, decode_encode]
      have hb := rippleStepCell_bounds expNeg n uPrev uPrevPrev imp uStrength i j
      nlinarith [hb.1, hb.2]
    calc energy n (rippleStep expNeg n uPrev uPrevPrev imp uStrength)
        ≤ ∑ _i ∈ Finset.range n, ∑ _j ∈ Finset.range n, (1 : ℚ) := by
          refine Finset.sum_le_sum fun i _ => Finset.sum_le_sum fun j _ => hcell i j
      _ = (n : ℚ) ^ 2 := by
          simp [Finset.sum_const, Finset.card_range]
          ring
  · intro i j
    simp only [rippleStep, rippleStepCell, flatTex, sampleH, decodeH, encodeH,
      clampQ, hmag]
    norm_num

theorem claim8_amended_witness :
    energy 1 (rippleStep (fun _ => 0) 1 flatTex halfTex ⟨0, 0, 0, 1/50⟩ 0.9) ≤ (1 : ℚ) ^ 2 ∧
      (∀ i j : ℤ, rippleStep (fun _ => 0) 1 flatTex flatTex ⟨0, 0, 0, 1/50⟩ 0.9 i j = 0.5) :=
  claim8_amended (fun _ => 0) 1 flatTex halfTex ⟨0, 0, 0, 1/50⟩ 0.9 rfl

/-- Claim C10: at initialization all three buffers hold the stored value
`0.5` in the height channel at every cell, which decodes to height `0`:
the simulation starts from a perfectly flat surface. -/
theorem claim10_init_flat (b : Fin 3) (i j : ℤ) :
    initState.bufs b i j = 0.5 ∧ decodeH (initState.bufs b i j) = 0 := by
  constructor
  · rfl
  · simp [initState, decodeH]
    norm_num

/-! ### PhaseAnimator: the level transition of `PondScene` -/

/-- The four lifecycle phases of the pond (`PondPhase`). -/
inductive Phase
  | off
  | filling
  | on
  | draining
  deriving DecidableEq

/-- `easeInOutCubic` of `PondScene`:
`t < 0.5 ? 4*t*t*t : 1 - Math.pow(-2*t + 2, 3)/2`. -/
def easeInOutCubic (t : ℚ) : ℚ :=
  if t < 0.5 then 4 * t * t * t else 1 - (-2 * t + 2) ^ 3 / 2

/-- A running level transition: start level, target level, duration in
milliseconds. -/
structure Transition where
  fromLevel : ℚ
  toLevel : ℚ
  dur : ℚ

/-- Entering a phase (re)starts the level animation of `PondScene`: the
start value is read from `levelRef.current` — the *current* interpolated
level — the target is `0` for draining and `1` otherwise, and the duration
is `500` ms for draining and `650` ms otherwise. -/
def startTransition (ph : Phase) (currentLevel : ℚ) : Transition :=
  { fromLevel := currentLevel
  , toLevel := if ph = Phase.draining then 0 else 1
  , dur := if ph = Phase.draining then 500 else 650 }

/-- The level computed by the animation tick `elapsed = now - start`
milliseconds into a transition: `from + (to - from) * ease(min 1
(elapsed/dur))`. -/
def levelAt (tr : Transition) (elapsed : ℚ) : ℚ :=
  tr.fromLevel + (tr.toLevel - tr.fromLevel) * easeInOutCubic (min 1 (elapsed / tr.dur))

theorem easeInOutCubic_zero : easeInOutCubic 0 = 0 := by
  norm_num [easeInOutCubic]

theorem easeInOutCubic_one : easeInOutCubic 1 = 1 := by
  norm_num [easeInOutCubic]

theorem easeInOutCubic_bounds (t : ℚ) (h0 : 0 ≤ t) (h1 : t ≤ 1) :
    0 ≤ easeInOutCubic t ∧ easeInOutCubic t ≤ 1 := by
  unfold easeInOutCubic
  split_ifs with h
  · have h2 : t ≤ 1/2 := by
      rw [show (0.5:ℚ) = 1/2 from by norm_num] at h
      linarith
    constructor
    · nlinarith [mul_nonneg (mul_nonneg h0 h0) h0]
    · nlinarith [mul_nonneg (mul_nonneg h0 h0) (sub_nonneg.mpr h2),
        mul_nonneg h0 (sub_nonneg.mpr h2)]
  · push_neg at h
    have h2 : 1/2 ≤ t := by
      rw [show (0.5:ℚ) = 1/2 from by norm_num] at h
      linarith
    have hu0 : (0:ℚ) ≤ -2 * t + 2 := by linarith
    have hu1 : -2 * t + 2 ≤ 1 := by linarith
    have hcube : (-2 * t + 2) ^ 3 ≤ 1 := pow_le_one₀ hu0 hu1
    have hcube0 : (0:ℚ) ≤ (-2 * t + 2) ^ 3 := pow_nonneg hu0 3
    constructor <;> linarith

/-- Claim C5: re-triggering a transition starts the new interpolation from
the *current* interpolated level: for every phase the new transition's
start equals the level at the moment of the phase change (so the level at
elapsed `0` is that value, with no discontinuity); switching to draining
at level `v` targets `0` over `500` ms, keeps the level within `[0, v]`
throughout, and reaches exactly `0` once `500` ms have elapsed — it does
not reset to start from `1`. -/
theorem claim5_retarget_from_current (ph : Phase) (v t : ℚ)
    (hv0 : 0 ≤ v) (ht : 0 ≤ t) :
    (startTransition ph v).fromLevel = v ∧
    levelAt (startTransition ph v) 0 = v ∧
    (startTransition Phase.draining v).toLevel = 0 ∧
    (startTransition Phase.draining v).dur = 500 ∧
    (0 ≤ levelAt (startTransition Phase.draining v) t ∧
      levelAt (startTransition Phase.draining v) t ≤ v) ∧
    (500 ≤ t → levelAt (startTransition Phase.draining v) t = 0) := by
  have hdr : startTransition Phase.draining v =
      { fromLevel := v, toLevel := 0, dur := 500 } := by
    simp [startTransition]
  refine ⟨rfl, ?_, by rw [hdr], by rw [hdr], ?_, ?_⟩
  · simp [levelAt, startTransition, easeInOutCubic_zero]
  · rw [hdr]
    have hp0 : 0 ≤ min 1 (t / 500) := le_min (by norm_num) (by positivity)
    have hp1 : min 1 (t / 500) ≤ 1 := min_le_left _ _
    have he := easeInOutCubic_bounds _ hp0 hp1
    simp only [levelAt]
    constructor
    · nlinarith [he.1, he.2]
    · nlinarith [he.1, he.2]
  · intro h500
    rw [hdr]
    have hmin : min 1 (t / 500) = 1 := by
      rw [min_eq_left]
      rw [le_div_iff (by norm_num : (0:ℚ) < 500)]
      linarith
    simp [levelAt, hmin, easeInOutCubic_one]

theorem claim5_retarget_from_current_witness :
    (startTransition Phase.draining (2/5)).fromLevel = 2/5 ∧
    levelAt (startTransition Phase.draining (2/5)) 0 = 2/5 ∧
    (startTransition Phase.draining (2/5)).toLevel = 0 ∧
    (startTransition Phase.draining (2/5)).dur = 500 ∧
    (0 ≤ levelAt (startTransition Phase.draining (2/5)) 250 ∧
      levelAt (startTransition Phase.draining (2/5)) 250 ≤ 2/5) ∧
    (500 ≤ (250:ℚ) → levelAt (startTransition Phase.draining (2/5)) 250 = 0) :=
  claim5_retarget_from_current Phase.draining (2/5) 250 (by norm_num) (by norm_num)

/-- One animation-effect run of `PondScene`, folded over the scheduled
frame timestamps: each tick computes `p = min 1 ((now - start)/dur)` and
sets the eased level; while `p < 1` another frame is scheduled; at the
first tick with `p = 1` the level is set to the target and — exactly when
the phase is draining and the target is `0` — `onDrained` is invoked, and
no further frame runs.  Returns the final level and the number of
`onDrained` invocations. -/
def runTicks (ph : Phase) (tr : Transition) (start : ℚ) :
    List ℚ → ℚ → ℕ → ℚ × ℕ
  | [], lvl, cnt => (lvl, cnt)
  | tNow :: rest, _lvl, cnt =>
    if min 1 ((tNow - start) / tr.dur) < 1 then
      runTicks ph tr start rest
        (tr.fromLevel + (tr.toLevel - tr.fromLevel)
          * easeInOutCubic (min 1 ((tNow - start) / tr.dur))) cnt
    else
      (tr.toLevel, cnt + (if ph = Phase.draining ∧ tr.toLevel = 0 then 1 else 0))

theorem runTicks_count_of_ne_draining (ph : Phase) (tr : Transition) (start : ℚ)
    (hph : ph ≠ Phase.draining) (times : List ℚ) (lvl : ℚ) (cnt : ℕ) :
    (runTicks ph tr start times lvl cnt).2 = cnt := by
  induction times generalizing lvl cnt with
  | nil => rfl
  | cons tNow rest ih =>
    rw [runTicks]
    by_cases hp : min 1 ((tNow - start) / tr.dur) < 1
    · rw [if_pos hp]
      exact ih _ _
    · rw [if_neg hp, if_neg (fun hc => hph hc.1)]
      rfl

theorem runTicks_draining (tr : Transition) (start : ℚ)
    (hto : tr.toLevel = 0) (hdur : tr.dur = 500)
    (times : List ℚ) (lvl : ℚ) (cnt : ℕ) :
    (runTicks Phase.draining tr start times lvl cnt).2 =
      cnt + (if ∃ tN ∈ times, start + 500 ≤ tN then 1 else 0) ∧
    ((∃ tN ∈ times, start + 500 ≤ tN) →
      (runTicks Phase.draining tr start times lvl cnt).1 = 0) := by
  induction times generalizing lvl cnt with
  | nil => simp [runTicks]
  | cons tNow rest ih =>
    rw [runTicks]
    by_cases hp : min 1 ((tNow - start) / tr.dur) < 1
    · rw [if_pos hp]
      have hlt : tNow < start + 500 := by
        by_contra hge
        push_neg at hge
        have h1 : (1:ℚ) ≤ (tNow - start) / tr.dur := by
          rw [hdur, le_div_iff (by norm_num : (0:ℚ) < 500)]
          linarith
        rw [min_eq_left h1] at hp
        exact absurd hp (lt_irrefl 1)
      have hiff : (∃ tN ∈ tNow :: rest, start + 500 ≤ tN) ↔
          (∃ tN ∈ rest, start + 500 ≤ tN) := by
        simp only [List.mem_cons]
        constructor
        · rintro ⟨tN, htN | htN, hle⟩
          · exact absurd hle (by rw [htN]; linarith)
          · exact ⟨tN, htN, hle⟩
        · rintro ⟨tN, htN, hle⟩
          exact ⟨tN, Or.inr htN, hle⟩
      have hif : (if ∃ tN ∈ tNow :: rest, start + 500 ≤ tN then (1:ℕ) else 0) =
          (if ∃ tN ∈ rest, start + 500 ≤ tN then 1 else 0) :=
        if_congr hiff rfl rfl
      rw [hif, hiff]
      exact ih _ _
    · rw [if_neg hp]
      push_neg at hp
      have hge : start + 500 ≤ tNow := by
        have hx : min 1 ((tNow - start) / tr.dur) ≤ (tNow - start) / tr.dur :=
          min_le_right _ _
        have h1 : (1:ℚ) ≤ (tNow - start) / tr.dur := le_trans hp hx
        rw [hdur, le_div_iff (by norm_num : (0:ℚ) < 500)] at h1
        linarith
      have hex : ∃ tN ∈ tNow :: rest, start + 500 ≤ tN :=
        ⟨tNow, List.mem_cons_self _ _, hge⟩
      constructor
      · rw [if_pos ⟨rfl, hto⟩, if_pos hex]
      · intro _
        exact hto

/-- Claim C6: over one animation-effect run, `onDrained` is never invoked
while the phase is filling or on; while the phase is draining it is
invoked at most once, it is invoked exactly once if and only if some
scheduled frame falls at or after `start + 500` ms (the draining duration,
i.e. the cycle completes), and when it fires the level is exactly `0`. -/
theorem claim6_onDrained_once (ph : Phase) (v start : ℚ) (times : List ℚ) :
    ((ph = Phase.filling ∨ ph = Phase.on) →
      (runTicks ph (startTransition ph v) start times v 0).2 = 0) ∧
    (ph = Phase.draining →
      (runTicks ph (startTransition ph v) start times v 0).2 ≤ 1 ∧
      ((runTicks ph (startTransition ph v) start times v 0).2 = 1 ↔
        ∃ tN ∈ times, start + 500 ≤ tN) ∧
      ((∃ tN ∈ times, start + 500 ≤ tN) →
        (runTicks ph (startTransition ph v) start times v 0).1 = 0)) := by
  constructor
  · intro hph
    refine runTicks_count_of_ne_draining ph _ start ?_ times v 0
    rcases hph with h | h <;> subst h <;> intro hcontra <;> exact Phase.noConfusion hcontra
  · intro hph
    subst hph
    have hto : (startTransition Phase.draining v).toLevel = 0 := by
      simp [startTransition]
    have hdur : (startTransition Phase.draining v).dur = 500 := by
      simp [startTransition]
    have h := runTicks_draining (startTransition Phase.draining v) start hto hdur times v 0
    refine ⟨?_, ?_, h.2⟩
    · rw [h.1]
      split_ifs <;> norm_num
    · rw [h.1]
      split_ifs with hex
      · simpa using hex
      · simpa using hex

theorem claim6_onDrained_once_witness :
    (runTicks Phase.draining (startTransition Phase.draining 1) 0 [100, 600] 1 0).2 ≤ 1 ∧
    ((runTicks Phase.draining (startTransition Phase.draining 1) 0 [100, 600] 1 0).2 = 1 ↔
      ∃ tN ∈ [(100:ℚ), 600], (0:ℚ) + 500 ≤ tN) ∧
    ((∃ tN ∈ [(100:ℚ), 600], (0:ℚ) + 500 ≤ tN) →
      (runTicks Phase.draining (startTransition Phase.draining 1) 0 [100, 600] 1 0).1 = 0) :=
  (claim6_onDrained_once Phase.draining 1 0 [100, 600]).2 rfl

/-! ### SurfaceCompositor: the WaterPlane fragment shader -/

/-- GLSL `smoothstep(edge0, edge1, x)`: `t = clamp((x - edge0) / (edge1 -
edge0), 0, 1)` followed by `t * t * (3 - 2t)`. -/
def smoothstepQ (e0 e1 x : ℚ) : ℚ :=
  let t := clampQ ((x - e0) / (e1 - e0)) 0 1
  t * t * (3 - 2 * t)

theorem smoothstepQ_eq (e0 e1 x : ℚ) :
    smoothstepQ e0 e1 x =
      clampQ ((x - e0) / (e1 - e0)) 0 1 * clampQ ((x - e0) / (e1 - e0)) 0 1
        * (3 - 2 * clampQ ((x - e0) / (e1 - e0)) 0 1) := rfl

theorem smoothstepQ_bounds (e0 e1 x : ℚ) :
    0 ≤ smoothstepQ e0 e1 x ∧ smoothstepQ e0 e1 x ≤ 1 := by
  rw [smoothstepQ_eq]
  have ht := clampQ_le ((x - e0) / (e1 - e0)) 0 1 (by norm_num)
  constructor
  · nlinarith [ht.1, ht.2]
  · nlinarith [ht.1, ht.2,
      mul_nonneg (mul_nonneg (sub_nonneg.mpr ht.2) (sub_nonneg.mpr ht.2))
        (by linarith [ht.1] : (0:ℚ) ≤ 1 + 2 * clampQ ((x - e0) / (e1 - e0)) 0 1)]

/-- The vignette factor of the `WaterPlane` fragment shader:
`smoothstep(0.98, 0.45, distToCenter)`. -/
def vignetteQ (d : ℚ) : ℚ := smoothstepQ 0.98 0.45 d

/-- The overall alpha before the vignette: `alpha = 0.06 + 0.48 * uLevel`. -/
def alphaBase (level : ℚ) : ℚ := 0.06 + 0.48 * level

/-- The final per-pixel alpha of the `WaterPlane` fragment shader:
`alpha = 0.06 + 0.48 * uLevel` followed by `alpha *= vignette`. -/
def waterAlpha (level d : ℚ) : ℚ := alphaBase level * vignetteQ d

/-- The tint blend proportion of `mix(bg, uTint, 0.25 + 0.35 * uLevel)`. -/
def tintMixAmount (level : ℚ) : ℚ := 0.25 + 0.35 * level

theorem vignetteQ_bounds (d : ℚ) : 0 ≤ vignetteQ d ∧ vignetteQ d ≤ 1 :=
  smoothstepQ_bounds 0.98 0.45 d

theorem vignetteQ_eq_zero (d : ℚ) (hd : 0.98 ≤ d) : vignetteQ d = 0 := by
  unfold vignetteQ
  rw [smoothstepQ_eq]
  have harg : (d - 0.98) / (0.45 - 0.98) ≤ 0 :=
    div_nonpos_of_nonneg_of_nonpos (by linarith) (by norm_num)
  have hcl : clampQ ((d - 0.98) / (0.45 - 0.98)) 0 1 = 0 := by
    unfold clampQ
    rw [max_eq_right harg]
    exact min_eq_left (by norm_num)
  rw [hcl]
  ring

/-- Claim C9: in the compositor's per-pixel output the pre-vignette alpha
`0.06 + 0.48*level` and the tint blend proportion `0.25 + 0.35*level` are
strictly increasing in the presence level; the final alpha equals
`(0.06 + 0.48*level) * vignette(distance-from-center)`; and at level `0`
the effect vanishes: the final alpha is exactly `0` at edge distances
(`d ≥ 0.98`, where the vignette reaches `0`) and at most `0.06`
everywhere. -/
theorem claim9_compositor_alpha (l1 l2 level d : ℚ) (hl : l1 < l2) :
    alphaBase l1 < alphaBase l2 ∧
    tintMixAmount l1 < tintMixAmount l2 ∧
    waterAlpha level d = (0.06 + 0.48 * level) * vignetteQ d ∧
    (0.98 ≤ d → waterAlpha 0 d = 0) ∧
    waterAlpha 0 d ≤ 0.06 := by
  refine ⟨?_, ?_, rfl, ?_, ?_⟩
  · unfold alphaBase
    linarith
  · unfold tintMixAmount
    linarith
  · intro hd
    unfold waterAlpha
    rw [vignetteQ_eq_zero d hd]
    ring
  · have hv := vignetteQ_bounds d
    unfold waterAlpha alphaBase
    nlinarith [hv.1, hv.2]

theorem claim9_compositor_alpha_witness :
    alphaBase 0 < alphaBase 1 ∧
    tintMixAmount 0 < tintMixAmount 1 ∧
    waterAlpha (1/2) 1 = (0.06 + 0.48 * (1/2)) * vignetteQ 1 ∧
    ((0.98:ℚ) ≤ 1 → waterAlpha 0 1 = 0) ∧
    waterAlpha 0 1 ≤ 0.06 :=
  claim9_compositor_alpha 0 1 (1/2) 1 (by norm_num)

/-! ### DecorativeSpriteLayer: the LeafSystem -/

/-- `THREE.MathUtils.lerp(x, y, t) = x + (y - x) * t`. -/
def lerpQ (x y t : ℚ) : ℚ := x + (y - x) * t

/-- One floating leaf of `LeafSystem`. -/
structure Leaf where
  id : ℕ
  x : ℚ
  y : ℚ
  s : ℚ
  r : ℚ
  vx : ℚ
  wobble : ℚ

/-- The mutable state of `LeafSystem`: `leavesRef`, `nextSpawnAt` and the
id counter `idRef`. -/
structure LeafState where
  leaves : List Leaf
  nextSpawnAt : ℚ
  nextId : ℕ

/-- The `Math.random()` draws consumed by one `spawnLeaf` call. -/
structure SpawnRand where
  rs : ℚ
  ry : ℚ
  rvx : ℚ
  rr : ℚ
  rwob : ℚ

/-- `spawnLeaf` of `LeafSystem`: when the population is already at or
above `Math.floor(maxLeaves * 0.7)` and some existing leaf is still near
the spawn edge (`x < -w/2 + 1.6`), do nothing (anti-crowding rule);
otherwise push one new leaf just off the left edge with randomized
parameters.  `Math.PI` is abstracted as the parameter `piQ` (it is
irrational). -/
def spawnLeaf (piQ w h : ℚ) (maxLeaves : ℕ) (rnd : SpawnRand)
    (st : LeafState) : LeafState :=
  if ⌊(maxLeaves : ℚ) * 0.7⌋ ≤ (st.leaves.length : ℤ) ∧
      st.leaves.any (fun l => decide (l.x < -w / 2 + 1.6)) = true then
    st
  else
    { st with
      leaves := st.leaves ++
        [{ id := st.nextId
         , x := -w / 2 - 0.65
         , y := lerpQ (-h / 2 + 0.6) (h / 2 - 0.6) rnd.ry
         , s := lerpQ 0.13 0.26 rnd.rs
         , r := lerpQ (-piQ) piQ rnd.rr
         , vx := lerpQ 0.10 0.22 rnd.rvx
         , wobble := rnd.rwob * piQ * 2 }]
      nextId := st.nextId + 1 }

/-- The `Math.random()` draws available to one `useFrame` call. -/
structure FrameRand where
  rFirst : ℚ
  rGap : ℚ
  spawn1 : SpawnRand
  spawn2 : SpawnRand

/-- The first-activation branch of the `LeafSystem` frame: when
`nextSpawnAt` is still `0`, schedule the first spawn after a randomized
short delay (`0.2`–`0.8` s) and force an immediate first leaf if the set is
empty. -/
def leafFirstActivation (piQ w h : ℚ) (maxLeaves : ℕ) (now : ℚ)
    (rnd : FrameRand) (st : LeafState) : LeafState :=
  if st.nextSpawnAt = 0 then
    if st.leaves.length = 0 then
      spawnLeaf piQ w h maxLeaves rnd.spawn1
        { st with nextSpawnAt := now + lerpQ 0.2 0.8 rnd.rFirst }
    else
      { st with nextSpawnAt := now + lerpQ 0.2 0.8 rnd.rFirst }
  else st

/-- The timer branch of the `LeafSystem` frame: spawn at most one leaf per
interval, and only if under the cap; then draw the next interval uniformly
from `[spawnMin, spawnMax]`. -/
def leafTimerSpawn (piQ w h : ℚ) (maxLeaves : ℕ) (spawnMin spawnMax now : ℚ)
    (rnd : FrameRand) (st : LeafState) : LeafState :=
  if st.nextSpawnAt ≤ now ∧ st.leaves.length < maxLeaves then
    { spawnLeaf piQ w h maxLeaves rnd.spawn2 st with
        nextSpawnAt := now + lerpQ spawnMin spawnMax rnd.rGap }
  else st

/-- The motion and culling part of the `LeafSystem` frame: drift/bob every
leaf (`Math.sin` abstracted as `sinQ`), then remove every leaf outside the
visible bounds. -/
def leafMoveCull (sinQ : ℚ → ℚ) (w h now dt : ℚ) (st : LeafState) : LeafState :=
  { st with
    leaves :=
      (st.leaves.map (fun l =>
        { l with
          x := l.x + l.vx * dt
          y := l.y + sinQ (now * 0.35 + l.wobble) * 0.03 * dt * 60
          r := l.r + sinQ (now * 0.25 + l.wobble) * 0.004 * dt * 60 })).filter
        (fun l => decide (l.x < w / 2 + 0.8) && decide (-h / 2 - 0.8 < l.y)
          && decide (l.y < h / 2 + 0.8)) }

/-- One enabled `useFrame` call of `LeafSystem`. -/
def leafFrame (sinQ : ℚ → ℚ) (piQ w h : ℚ) (maxLeaves : ℕ)
    (spawnMin spawnMax now dt : ℚ) (rnd : FrameRand) (st : LeafState) : LeafState :=
  leafMoveCull sinQ w h now dt
    (leafTimerSpawn piQ w h maxLeaves spawnMin spawnMax now rnd
      (leafFirstActivation piQ w h maxLeaves now rnd st))

/-- The inputs to one frame: the clock and the randomness. -/
structure FrameIn where
  now : ℚ
  dt : ℚ
  rnd : FrameRand

/-- Initial `LeafSystem` state: no leaves, `nextSpawnAt = 0`, `idRef = 1`. -/
def initLeafState : LeafState := { leaves := [], nextSpawnAt := 0, nextId := 1 }

/-- Running a sequence of enabled `LeafSystem` frames. -/
def runLeafFrames (sinQ : ℚ → ℚ) (piQ w h : ℚ) (maxLeaves : ℕ)
    (spawnMin spawnMax : ℚ) (frames : List FrameIn) (st : LeafState) : LeafState :=
  frames.foldl
    (fun s f => leafFrame sinQ piQ w h maxLeaves spawnMin spawnMax f.now f.dt f.rnd s) st

theorem spawnLeaf_length_le (piQ w h : ℚ) (maxLeaves : ℕ) (rnd : SpawnRand)
    (st : LeafState) :
    (spawnLeaf piQ w h maxLeaves rnd st).leaves.length ≤ st.leaves.length + 1 := by
  unfold spawnLeaf
  split_ifs with hc
  · exact Nat.le_succ _
  · simp

theorem leafFirstActivation_cap (piQ w h : ℚ) (maxLeaves : ℕ) (now : ℚ)
    (rnd : FrameRand) (st : LeafState) (hmax : 1 ≤ maxLeaves)
    (hst : st.leaves.length ≤ maxLeaves) :
    (leafFirstActivation piQ w h maxLeaves now rnd st).leaves.length ≤ maxLeaves := by
  unfold leafFirstActivation
  split_ifs with h0 hlen
  · calc (spawnLeaf piQ w h maxLeaves rnd.spawn1
          { st with nextSpawnAt := now + lerpQ 0.2 0.8 rnd.rFirst }).leaves.length
        ≤ st.leaves.length + 1 := spawnLeaf_length_le _ _ _ _ _ _
      _ ≤ maxLeaves := by omega
  · exact hst
  · exact hst

theorem leafTimerSpawn_cap (piQ w h : ℚ) (maxLeaves : ℕ)
    (spawnMin spawnMax now : ℚ) (rnd : FrameRand) (st : LeafState)
    (hst : st.leaves.length ≤ maxLeaves) :
    (leafTimerSpawn piQ w h maxLeaves spawnMin spawnMax now rnd st).leaves.length
      ≤ maxLeaves := by
  unfold leafTimerSpawn
  split_ifs with hc
  · calc ({ spawnLeaf piQ w h maxLeaves rnd.spawn2 st with
          nextSpawnAt := now + lerpQ spawnMin spawnMax rnd.rGap }).leaves.length
        = (spawnLeaf piQ w h maxLeaves rnd.spawn2 st).leaves.length := rfl
      _ ≤ st.leaves.length + 1 := spawnLeaf_length_le _ _ _ _ _ _
      _ ≤ maxLeaves := by omega
  · exact hst

theorem leafMoveCull_cap (sinQ : ℚ → ℚ) (w h now dt : ℚ) (st : LeafState)
    (maxLeaves : ℕ) (hst : st.leaves.length ≤ maxLeaves) :
    (leafMoveCull sinQ w h now dt st).leaves.length ≤ maxLeaves := by
  unfold leafMoveCull
  calc (List.filter _ (List.map _ st.leaves)).length
      ≤ (List.map _ st.leaves).length := List.length_filter_le _ _
    _ = st.leaves.length := List.length_map _ _
    _ ≤ maxLeaves := hst

theorem leafFrame_cap (sinQ : ℚ → ℚ) (piQ w h : ℚ) (maxLeaves : ℕ)
    (spawnMin spawnMax now dt : ℚ) (rnd : FrameRand) (st : LeafState)
    (hmax : 1 ≤ maxLeaves) (hst : st.leaves.length ≤ maxLeaves) :
    (leafFrame sinQ piQ w h maxLeaves spawnMin spawnMax now dt rnd st).leaves.length
      ≤ maxLeaves := by
  unfold leafFrame
  exact leafMoveCull_cap _ _ _ _ _ _ _
    (leafTimerSpawn_cap _ _ _ _ _ _ _ _ _
      (leafFirstActivation_cap _ _ _ _ _ _ _ hmax hst))

/-- Claim C7: under every sequence of enabled frames with arbitrary clock
values and arbitrary spawn-timer randomness (including the fastest allowed
spawn interval), the number of active leaves never exceeds the configured
cap, for every cap of at least one leaf (default 9). -/
theorem claim7_population_cap (sinQ : ℚ → ℚ) (piQ w h : ℚ) (maxLeaves : ℕ)
    (spawnMin spawnMax : ℚ) (frames : List FrameIn) (hmax : 1 ≤ maxLeaves) :
    (runLeafFrames sinQ piQ w h maxLeaves spawnMin spawnMax frames
        initLeafState).leaves.length ≤ maxLeaves := by
  suffices H : ∀ (frames : List FrameIn) (st : LeafState),
      st.leaves.length ≤ maxLeaves →
      (runLeafFrames sinQ piQ w h maxLeaves spawnMin spawnMax frames st).leaves.length
        ≤ maxLeaves by
    exact H frames initLeafState (by simp [initLeafState])
  intro frames
  induction frames with
  | nil => exact fun st hst => hst
  | cons f rest ih =>
    intro st hst
    exact ih _ (leafFrame_cap sinQ piQ w h maxLeaves spawnMin spawnMax
      f.now f.dt f.rnd st hmax hst)

theorem claim7_population_cap_witness :
    (runLeafFrames (fun _ => 0) 3 10 10 9 (5/2) (13/2)
        [⟨0, 1/60, ⟨0, 0, ⟨0, 0, 0, 0, 0⟩, ⟨0, 0, 0, 0, 0⟩⟩⟩,
         ⟨1/60, 1/60, ⟨0, 0, ⟨0, 0, 0, 0, 0⟩, ⟨0, 0, 0, 0, 0⟩⟩⟩]
        initLeafState).leaves.length ≤ 9 :=
  claim7_population_cap (fun _ => 0) 3 10 10 9 (5/2) (13/2)
    [⟨0, 1/60, ⟨0, 0, ⟨0, 0, 0, 0, 0⟩, ⟨0, 0, 0, 0, 0⟩⟩⟩,
     ⟨1/60, 1/60, ⟨0, 0, ⟨0, 0, 0, 0, 0⟩, ⟨0, 0, 0, 0, 0⟩⟩⟩]
    (by decide)

end Pond
